import Mathlib

/-!
Verification of the retry/idempotency control layer of the Zoho paid-invoice
collector (`zoho_paid_invoce_collector_script.py`).

The Python source is shallowly embedded below:
  * `exponential_backoff_retry` (source lines 21-74) becomes a pure loop over
    an attempt-outcome stream and a jitter stream, returning the produced
    result, the number of invocations of the wrapped operation, and the list
    of back-off sleeps.
  * `load_session_tracking` / `save_session_tracking` /
    `check_session_completed` (lines 82-104) become total functions over an
    abstract file state.
  * the session-ledger part of `collect_invoices` (lines 177-296) becomes a
    pure run function over an environment describing which external steps
    fail, recording the sequence of persisted session records.
  * the idempotency cache (`maybe_replay` / `record_result`) is imported by
    `src/tests/test_retry_and_idempotency.py` but absent from the script in
    `src/`; it is modelled from the spec (section 4.2) where noted.
-/

/- ## Python dict on JSON objects, as an insertion-ordered association list -/

/-- Lookup in a Python dict modelled as an association list (first match). -/
def dictGet {β : Type} (k : String) : List (String × β) → Option β
  | [] => none
  | (k', v) :: t => if k = k' then some v else dictGet k t

/-- Python dict assignment `d[k] = v`: replace in place if present, else
append (Python dicts preserve insertion order). -/
def dictInsert {β : Type} (k : String) (v : β) : List (String × β) → List (String × β)
  | [] => [(k, v)]
  | (k', v') :: t => if k = k' then (k, v) :: t else (k', v') :: dictInsert k v t

theorem dictGet_dictInsert_self {β : Type} (k : String) (v : β) :
    ∀ l : List (String × β), dictGet k (dictInsert k v l) = some v := by
  intro l
  induction l with
  | nil => simp [dictGet, dictInsert]
  | cons h t ih =>
      obtain ⟨k', v'⟩ := h
      by_cases hk : k = k' <;> simp [dictGet, dictInsert, hk, ih]

theorem length_dictInsert_of_not_mem {β : Type} (k : String) (v : β) :
    ∀ l : List (String × β), dictGet k l = none →
      (dictInsert k v l).length = l.length + 1 := by
  intro l
  induction l with
  | nil => simp [dictInsert]
  | cons h t ih =>
      obtain ⟨k', v'⟩ := h
      intro hget
      by_cases hk : k = k'
      · simp [dictGet, hk] at hget
      · simp [dictGet, hk] at hget
        simp [dictInsert, hk, ih hget]

/- ## String helpers: Python `str.lower()` and the `in` substring test -/

/-- Model of Python `str.lower()` for the ASCII error messages involved. -/
def pyLower (s : String) : String := String.mk (s.data.map Char.toLower)

/-- Does `hay` start with `needle`? (over character lists). -/
def charListStartsWith : List Char → List Char → Bool
  | _, [] => true
  | [], _ :: _ => false
  | a :: as, b :: bs => a == b && charListStartsWith as bs

/-- Does `hay` contain `needle` as a contiguous run? (Python `needle in hay`). -/
def charListContains : List Char → List Char → Bool
  | [], needle => needle.isEmpty
  | a :: t, needle => charListStartsWith (a :: t) needle || charListContains t needle

/-- Python `pat in hay` on strings. -/
def strContains (hay pat : String) : Bool := charListContains hay.data pat.data

theorem charListStartsWith_append (needle : List Char) :
    ∀ hay t : List Char, charListStartsWith hay needle = true →
      charListStartsWith (hay ++ t) needle = true := by
  induction needle with
  | nil => intro hay t _; cases hay <;> simp [charListStartsWith]
  | cons b bs ih =>
      intro hay t h
      cases hay with
      | nil => simp [charListStartsWith] at h
      | cons a as =>
          simp [charListStartsWith] at h ⊢
          exact ⟨h.1, ih as t h.2⟩

theorem charListContains_of_startsWith (hay needle : List Char)
    (h : charListStartsWith hay needle = true) :
    charListContains hay needle = true := by
  cases hay with
  | nil =>
      cases needle with
      | nil => simp [charListContains]
      | cons b bs => simp [charListStartsWith] at h
  | cons a t => simp [charListContains, h]

/- ## Backoff Retry Executor (source lines 21-74) -/

/-- Python's binary `min` on rationals, kept kernel-computable. -/
def pyMin (a b : ℚ) : ℚ := if a ≤ b then a else b

theorem pyMin_eq_min (a b : ℚ) : pyMin a b = min a b := by
  simp [pyMin, min_def]

/-- View of the `status` attribute of the value returned by one invocation of
the wrapped operation: no such attribute, an attribute `int()` rejects with
`ValueError`/`TypeError`, or an attribute coercible to an integer. -/
inductive StatusView where
  | absent : StatusView
  | nonNumeric : StatusView
  | code (n : Int) : StatusView
deriving DecidableEq

/-- Outcome of one invocation of the wrapped operation: it returns a value
(carrying its status view) or raises an exception with message `msg`. -/
inductive Outcome (ρ : Type) where
  | ret (r : ρ) (st : StatusView) : Outcome ρ
  | exn (msg : String) : Outcome ρ
deriving DecidableEq

/-- Result of the status-code inspection at lines 34-43: the synthetic
exception message raised for a coercible status `>= 500` or `== 429`, and
`none` when the attempt proceeds to the success path. -/
def statusFailure : StatusView → Option String
  | .code n =>
      if 500 ≤ n then some ("Server error: " ++ toString n)
      else if n = 429 then some ("Rate limited: " ++ toString n)
      else none
  | _ => none

/-- What one loop iteration observes after lines 31-45: either the attempt
reaches `return result`, or an exception (natural from the call, or synthetic
from the status check) reaches the `except` handler with message `msg`. -/
inductive Classified (ρ : Type) where
  | success (r : ρ) : Classified ρ
  | failure (msg : String) : Classified ρ
deriving DecidableEq

/-- Combine the invocation outcome with the status-code inspection. -/
def classify {ρ : Type} : Outcome ρ → Classified ρ
  | .ret r st =>
      match statusFailure st with
      | some m => .failure m
      | none => .success r
  | .exn m => .failure m

/-- The retryable-error test at lines 52-60, applied to the lowercased
message (`error_msg = str(e).lower()`). -/
def should_retry (msg : String) : Bool :=
  strContains msg "429" ||
  strContains msg "rate limited" ||
  strContains msg "server error" ||
  (strContains msg "5" && (strContains msg "error" || strContains msg "server")) ||
  strContains msg "timeout" ||
  strContains msg "network" ||
  strContains msg "connection"

/-- How a run of the wrapper ends: `return result`, a (re-)raised exception,
or the `return None` after the loop (reachable only when `max_attempts <= 0`). -/
inductive RunResult (ρ : Type) where
  | value (r : ρ) : RunResult ρ
  | raised (msg : String) : RunResult ρ
  | retNone : RunResult ρ
deriving DecidableEq

/-- Observable trace of one run of the wrapper: final result, number of
invocations of the wrapped operation, and the back-off sleeps in order. -/
structure RunTrace (ρ : Type) where
  result : RunResult ρ
  calls : Nat
  sleeps : List ℚ
deriving DecidableEq

/-- The `while attempts < max_attempts` loop of lines 26-72. `fuel` is
`max_attempts - attempts` (number of loop iterations still allowed), `idx`
is the 0-based index of the next invocation, `delay` the current internal
delay. `op i` is the outcome of the `i`-th invocation of the wrapped
operation, `jit i` the `random.uniform(0.5, 1.5)` draw used for the sleep
after a failed `i`-th invocation, `maxD` the `max_delay` parameter. After a
failure, `attempts >= max_attempts` at line 62 is `fuel = 0` here. -/
def retryLoop {ρ : Type} (op : Nat → Outcome ρ) (jit : Nat → ℚ) (maxD : ℚ) :
    Nat → Nat → ℚ → RunTrace ρ
  | 0, _, _ => ⟨.retNone, 0, []⟩
  | fuel + 1, idx, delay =>
    match classify (op idx) with
    | .success r => ⟨.value r, 1, []⟩
    | .failure m =>
        if fuel = 0 ∨ should_retry (pyLower m) = false then
          ⟨.raised m, 1, []⟩
        else
          let s := pyMin (delay * jit idx) maxD
          let rest := retryLoop op jit maxD fuel (idx + 1) (delay * 2)
          ⟨rest.result, rest.calls + 1, s :: rest.sleeps⟩

/-- The decorator parameters of `exponential_backoff_retry` (line 21). -/
structure Policy where
  max_attempts : Nat
  base_delay : ℚ
  max_delay : ℚ
deriving DecidableEq

/-- One run of a function wrapped by `exponential_backoff_retry`: the loop
starts with `attempts = 0` and `delay = base_delay` (lines 26-27). -/
def exponential_backoff_retry {ρ : Type} (p : Policy) (op : Nat → Outcome ρ)
    (jit : Nat → ℚ) : RunTrace ρ :=
  retryLoop op jit p.max_delay p.max_attempts 0 p.base_delay

/- ## Generic facts about the retry loop -/

theorem retryLoop_calls_le {ρ : Type} (op : Nat → Outcome ρ) (jit : Nat → ℚ) (maxD : ℚ) :
    ∀ (fuel idx : Nat) (delay : ℚ), (retryLoop op jit maxD fuel idx delay).calls ≤ fuel := by
  intro fuel
  induction fuel with
  | zero => intro idx delay; simp [retryLoop]
  | succ f ih =>
      intro idx delay
      rcases hcl : classify (op idx) with r | m
      · simp [retryLoop, hcl]
      · by_cases hcond : f = 0 ∨ should_retry (pyLower m) = false
        · simp [retryLoop, hcl, hcond]
        · simp only [retryLoop, hcl, if_neg hcond]
          have := ih (idx + 1) (delay * 2)
          omega

theorem retryLoop_all_fail {ρ : Type} (op : Nat → Outcome ρ) (jit : Nat → ℚ) (maxD : ℚ) :
    ∀ (fuel idx : Nat) (delay : ℚ), 1 ≤ fuel →
      (∀ i, i < fuel → ∃ m, classify (op (idx + i)) = .failure m ∧
        should_retry (pyLower m) = true) →
      ∃ mlast, classify (op (idx + (fuel - 1))) = .failure mlast ∧
        (retryLoop op jit maxD fuel idx delay).calls = fuel ∧
        (retryLoop op jit maxD fuel idx delay).result = .raised mlast := by
  intro fuel
  induction fuel with
  | zero => intro idx delay h; omega
  | succ f ih =>
      intro idx delay _ hfail
      obtain ⟨m0, hm0, hr0⟩ := hfail 0 (by omega)
      have hm0' : classify (op idx) = .failure m0 := by simpa using hm0
      by_cases hf : f = 0
      · subst hf
        exact ⟨m0, by simpa using hm0, by simp [retryLoop, hm0'], by simp [retryLoop, hm0']⟩
      · obtain ⟨ml, hml, hc, hres⟩ := ih (idx + 1) (delay * 2) (by omega)
          (fun i hi => by
            have h := hfail (i + 1) (by omega)
            have harith : idx + (i + 1) = idx + 1 + i := by omega
            rwa [harith] at h)
        have hidx : idx + 1 + (f - 1) = idx + (f + 1 - 1) := by omega
        rw [hidx] at hml
        refine ⟨ml, hml, ?_, ?_⟩
        · simp [retryLoop, hm0', hr0, hf, hc]
        · simp [retryLoop, hm0', hr0, hf, hres]

theorem retryLoop_fail_then_succ {ρ : Type} (op : Nat → Outcome ρ) (jit : Nat → ℚ)
    (maxD : ℚ) :
    ∀ (k fuel idx : Nat) (delay : ℚ) (r : ρ), k < fuel →
      (∀ i, i < k → ∃ m, classify (op (idx + i)) = .failure m ∧
        should_retry (pyLower m) = true) →
      classify (op (idx + k)) = .success r →
      retryLoop op jit maxD fuel idx delay =
        ⟨.value r, k + 1,
          (List.range k).map (fun j => pyMin (delay * 2 ^ j * jit (idx + j)) maxD)⟩ := by
  intro k
  induction k with
  | zero =>
      intro fuel idx delay r hk _ hsucc
      obtain ⟨f, rfl⟩ : ∃ f, fuel = f + 1 := ⟨fuel - 1, by omega⟩
      have hsucc' : classify (op idx) = .success r := by simpa using hsucc
      simp [retryLoop, hsucc']
  | succ k ih =>
      intro fuel idx delay r hk hfail hsucc
      obtain ⟨f, rfl⟩ : ∃ f, fuel = f + 1 := ⟨fuel - 1, by omega⟩
      obtain ⟨m0, hm0, hr0⟩ := hfail 0 (by omega)
      have hm0' : classify (op idx) = .failure m0 := by simpa using hm0
      have hf : ¬(f = 0 ∨ should_retry (pyLower m0) = false) := by
        simp [hr0]; omega
      have hsucc' : classify (op (idx + 1 + k)) = .success r := by
        have harith : idx + (k + 1) = idx + 1 + k := by omega
        rwa [harith] at hsucc
      have hrec := ih f (idx + 1) (delay * 2) r (by omega)
        (fun i hi => by
          have h := hfail (i + 1) (by omega)
          have harith : idx + (i + 1) = idx + 1 + i := by omega
          rwa [harith] at h)
        hsucc'
      simp only [retryLoop, hm0', if_neg hf, hrec, RunTrace.mk.injEq, true_and]
      rw [List.range_succ_eq_map, List.map_cons, List.map_map]
      refine congrArg₂ _ ?_ ?_
      · have : delay * 2 ^ (0 : ℕ) * jit (idx + 0) = delay * jit idx := by
          norm_num
        rw [this]
      · refine List.map_congr_left ?_
        intro j _
        show pyMin (delay * 2 * 2 ^ j * jit (idx + 1 + j)) maxD =
          pyMin (delay * 2 ^ (j + 1) * jit (idx + (j + 1))) maxD
        have harith : idx + 1 + j = idx + (j + 1) := by omega
        rw [harith]
        have : delay * 2 * 2 ^ j = delay * 2 ^ (j + 1) := by ring
        rw [this]

theorem shouldRetry_serverError (t : String) :
    should_retry (pyLower ("Server error: " ++ t)) = true := by
  have hdata : (pyLower ("Server error: " ++ t)).data =
      "server error: ".data ++ t.data.map Char.toLower := by
    show ("Server error: ".data ++ t.data).map Char.toLower = _
    rw [List.map_append]
    rfl
  have hsub : strContains (pyLower ("Server error: " ++ t)) "server error" = true := by
    unfold strContains
    rw [hdata]
    exact charListContains_of_startsWith _ _
      (charListStartsWith_append _ _ _ (by decide))
  simp [should_retry, hsub]

/-- C1: for every operation wrapped by `exponential_backoff_retry` with
`max_attempts ≥ 1`, the wrapped operation is invoked at most `max_attempts`
times; and when every attempt fails with a retryable error, it is invoked
exactly `max_attempts` times and the final error is re-raised unchanged (the
raised message is exactly the message of the last attempt's error). -/
theorem claim_C1_attempt_ceiling_and_exhaustion {ρ : Type} (p : Policy)
    (op : Nat → Outcome ρ) (jit : Nat → ℚ) (hA : 1 ≤ p.max_attempts) :
    (exponential_backoff_retry p op jit).calls ≤ p.max_attempts ∧
    ((∀ i, i < p.max_attempts → ∃ m, classify (op i) = .failure m ∧
        should_retry (pyLower m) = true) →
      ∃ mlast, classify (op (p.max_attempts - 1)) = .failure mlast ∧
        (exponential_backoff_retry p op jit).calls = p.max_attempts ∧
        (exponential_backoff_retry p op jit).result = .raised mlast) := by
  constructor
  · exact retryLoop_calls_le op jit p.max_delay p.max_attempts 0 p.base_delay
  · intro hfail
    have h := retryLoop_all_fail op jit p.max_delay p.max_attempts 0 p.base_delay hA
      (fun i hi => by simpa using hfail i hi)
    simpa using h

theorem claim_C1_witness :
    1 ≤ (2 : Nat) ∧
    (exponential_backoff_retry ⟨2, 1, 16⟩ (fun _ => Outcome.exn "timeout")
      (fun _ => 1) : RunTrace Unit).calls = 2 ∧
    (exponential_backoff_retry ⟨2, 1, 16⟩ (fun _ => Outcome.exn "timeout")
      (fun _ => 1) : RunTrace Unit).result = .raised "timeout" := by
  have h := (claim_C1_attempt_ceiling_and_exhaustion (ρ := Unit) ⟨2, 1, 16⟩
      (fun _ => Outcome.exn "timeout") (fun _ => 1) (by decide)).2
    (fun i _ => ⟨"timeout", rfl, by decide⟩)
  obtain ⟨ml, hml, hc, hres⟩ := h
  have hml' : ml = "timeout" := by simpa [classify] using hml.symm
  subst hml'
  exact ⟨by decide, hc, hres⟩

/-- C4: an error whose lowercased message contains none of the retryable
fragments (`429`, `rate limited`, `server error`, `timeout`, `network`,
`connection`) and does not match the `5`-with-`error`/`server` pattern is
re-raised immediately: the run raises that very message after exactly one
invocation and with no sleep, for any `max_attempts ≥ 1`. -/
theorem claim_C4_fatal_error_single_invocation {ρ : Type} (p : Policy)
    (op : Nat → Outcome ρ) (jit : Nat → ℚ) (m : String) (hA : 1 ≤ p.max_attempts)
    (h0 : classify (op 0) = .failure m)
    (h429 : strContains (pyLower m) "429" = false)
    (hrl : strContains (pyLower m) "rate limited" = false)
    (hse : strContains (pyLower m) "server error" = false)
    (hto : strContains (pyLower m) "timeout" = false)
    (hnw : strContains (pyLower m) "network" = false)
    (hcn : strContains (pyLower m) "connection" = false)
    (h5 : ¬(strContains (pyLower m) "5" = true ∧
      (strContains (pyLower m) "error" = true ∨ strContains (pyLower m) "server" = true))) :
    exponential_backoff_retry p op jit = ⟨.raised m, 1, []⟩ := by
  have hsr : should_retry (pyLower m) = false := by
    rcases hb5 : strContains (pyLower m) "5" with _ | _
    · simp [should_retry, h429, hrl, hse, hto, hnw, hcn, hb5]
    · have hbe : strContains (pyLower m) "error" = false := by
        rcases hbe : strContains (pyLower m) "error" with _ | _
        · rfl
        · exact absurd ⟨hb5, Or.inl hbe⟩ h5
      have hbs : strContains (pyLower m) "server" = false := by
        rcases hbs : strContains (pyLower m) "server" with _ | _
        · rfl
        · exact absurd ⟨hb5, Or.inr hbs⟩ h5
      simp [should_retry, h429, hrl, hse, hto, hnw, hcn, hb5, hbe, hbs]
  obtain ⟨f, hm⟩ : ∃ f, p.max_attempts = f + 1 := ⟨p.max_attempts - 1, by omega⟩
  unfold exponential_backoff_retry
  rw [hm]
  simp [retryLoop, h0, hsr]

theorem claim_C4_witness :
    1 ≤ (3 : Nat) ∧
    strContains (pyLower "400 Bad Request") "429" = false ∧
    strContains (pyLower "400 Bad Request") "rate limited" = false ∧
    strContains (pyLower "400 Bad Request") "server error" = false ∧
    strContains (pyLower "400 Bad Request") "timeout" = false ∧
    strContains (pyLower "400 Bad Request") "network" = false ∧
    strContains (pyLower "400 Bad Request") "connection" = false ∧
    ¬(strContains (pyLower "400 Bad Request") "5" = true ∧
      (strContains (pyLower "400 Bad Request") "error" = true ∨
        strContains (pyLower "400 Bad Request") "server" = true)) ∧
    (exponential_backoff_retry ⟨3, 1, 16⟩ (fun _ => Outcome.exn "400 Bad Request")
      (fun _ => 1) : RunTrace Unit) = ⟨.raised "400 Bad Request", 1, []⟩ :=
  ⟨by decide, by decide, by decide, by decide, by decide, by decide, by decide, by decide,
    claim_C4_fatal_error_single_invocation ⟨3, 1, 16⟩ (fun _ => Outcome.exn "400 Bad Request")
      (fun _ => 1) "400 Bad Request" (by decide) rfl (by decide) (by decide) (by decide)
      (by decide) (by decide) (by decide) (by decide)⟩

/-- C5: a returned result whose status field is coercible to an integer
`n ≥ 500` or `n = 429` is converted into a synthetic failure whose message is
classified retryable, before the success path is taken; a result whose status
field is absent or not coercible is returned immediately with attempt count 1
and no sleep. -/
theorem claim_C5_status_code_conversion {ρ : Type} (p : Policy)
    (op : Nat → Outcome ρ) (jit : Nat → ℚ) (hA : 1 ≤ p.max_attempts) :
    (∀ (r : ρ) (n : Int), 500 ≤ n ∨ n = 429 →
      ∃ m, classify (Outcome.ret r (.code n)) = .failure m ∧
        should_retry (pyLower m) = true) ∧
    (∀ (r : ρ) (st : StatusView), st = .absent ∨ st = .nonNumeric →
      op 0 = .ret r st →
      exponential_backoff_retry p op jit = ⟨.value r, 1, []⟩) := by
  constructor
  · rintro r n (hn | rfl)
    · refine ⟨"Server error: " ++ toString n, ?_, shouldRetry_serverError _⟩
      simp [classify, statusFailure, hn]
    · refine ⟨"Rate limited: " ++ toString (429 : Int), ?_, by decide⟩
      norm_num [classify, statusFailure]
  · obtain ⟨f, hm⟩ : ∃ f, p.max_attempts = f + 1 := ⟨p.max_attempts - 1, by omega⟩
    rintro r st (rfl | rfl) h0 <;>
      (unfold exponential_backoff_retry; rw [hm]; simp [retryLoop, h0, classify, statusFailure])

theorem claim_C5_witness :
    1 ≤ (1 : Nat) ∧
    (∃ m, classify (Outcome.ret (0 : Nat) (.code 503)) = .failure m ∧
      should_retry (pyLower m) = true) ∧
    (exponential_backoff_retry ⟨1, 1, 16⟩ (fun _ => Outcome.ret (0 : Nat) .absent)
      (fun _ => 1)) = ⟨.value 0, 1, []⟩ :=
  ⟨by decide,
    (claim_C5_status_code_conversion ⟨1, 1, 16⟩ (fun _ => Outcome.ret (0 : Nat) .absent)
      (fun _ => 1) (by decide)).1 0 503 (Or.inl (by norm_num)),
    (claim_C5_status_code_conversion ⟨1, 1, 16⟩ (fun _ => Outcome.ret (0 : Nat) .absent)
      (fun _ => 1) (by decide)).2 0 .absent (Or.inl rfl) rfl⟩

/-- C3 (amended): for `k < max_attempts` retryable failures followed by
success, the operation is invoked exactly `k+1` times and the result is
returned; the `j`-th sleep (0-based, between attempts `j+1` and `j+2`) equals
`min(base_delay · 2^j · jitter_j, max_delay)` — so the internal delay starts at
`base_delay` and doubles after every retried attempt independent of the
jitter — and for jitter draws in `[0.5, 1.5]` each sleep lies in
`[min(0.5 · base_delay · 2^j, max_delay), min(1.5 · base_delay · 2^j, max_delay)]`.
The lower bound carries the `max_delay` clamp that the original claim omits. -/
theorem claim_C3_backoff_window {ρ : Type} (p : Policy) (op : Nat → Outcome ρ)
    (jit : Nat → ℚ) (k : Nat) (r : ρ)
    (hjit : ∀ i, 1 / 2 ≤ jit i ∧ jit i ≤ 3 / 2)
    (hbase : 0 < p.base_delay)
    (hk : k < p.max_attempts)
    (hfail : ∀ i, i < k → ∃ m, classify (op i) = .failure m ∧
      should_retry (pyLower m) = true)
    (hsucc : classify (op k) = .success r) :
    (exponential_backoff_retry p op jit).calls = k + 1 ∧
    (exponential_backoff_retry p op jit).result = .value r ∧
    (exponential_backoff_retry p op jit).sleeps =
      (List.range k).map (fun j => pyMin (p.base_delay * 2 ^ j * jit j) p.max_delay) ∧
    ∀ j, j < k →
      min (1 / 2 * (p.base_delay * 2 ^ j)) p.max_delay ≤
        (exponential_backoff_retry p op jit).sleeps.getD j 0 ∧
      (exponential_backoff_retry p op jit).sleeps.getD j 0 ≤
        min (3 / 2 * (p.base_delay * 2 ^ j)) p.max_delay := by
  have hrun := retryLoop_fail_then_succ op jit p.max_delay k p.max_attempts 0 p.base_delay r
    hk (fun i hi => by simpa using hfail i hi) (by simpa using hsucc)
  have hrun' : exponential_backoff_retry p op jit =
      ⟨.value r, k + 1, (List.range k).map
        (fun j => pyMin (p.base_delay * 2 ^ j * jit j) p.max_delay)⟩ := by
    rw [exponential_backoff_retry, hrun]
    simp
  rw [hrun']
  refine ⟨rfl, rfl, rfl, ?_⟩
  intro j hj
  have hget : ((List.range k).map
      (fun j => pyMin (p.base_delay * 2 ^ j * jit j) p.max_delay)).getD j 0 =
      pyMin (p.base_delay * 2 ^ j * jit j) p.max_delay := by
    rw [List.getD_eq_getElem?_getD, List.getElem?_map, List.getElem?_range hj]
    rfl
  show min _ _ ≤ ((List.range k).map _).getD j 0 ∧ ((List.range k).map _).getD j 0 ≤ min _ _
  rw [hget, pyMin_eq_min]
  have hpos : (0 : ℚ) ≤ p.base_delay * 2 ^ j := by positivity
  constructor
  · refine min_le_min ?_ le_rfl
    calc 1 / 2 * (p.base_delay * 2 ^ j) = p.base_delay * 2 ^ j * (1 / 2) := by ring
      _ ≤ p.base_delay * 2 ^ j * jit j :=
        mul_le_mul_of_nonneg_left (hjit j).1 hpos
  · refine min_le_min ?_ le_rfl
    calc p.base_delay * 2 ^ j * jit j ≤ p.base_delay * 2 ^ j * (3 / 2) :=
        mul_le_mul_of_nonneg_left (hjit j).2 hpos
      _ = 3 / 2 * (p.base_delay * 2 ^ j) := by ring

/-- Attempt-outcome stream for the C3 counterexample: seven retryable
failures, then success. -/
def cexC3op : Nat → Outcome Unit :=
  fun i => if i < 7 then Outcome.exn "timeout" else Outcome.ret () .absent

/-- Jitter stream for the C3 counterexample: every draw is `0.5`. -/
def cexC3jit : Nat → ℚ := fun _ => mkRat 1 2

/-- C3 counterexample: with `max_attempts = 8`, `base_delay = 1`,
`max_delay = 16`, seven retryable failures followed by success, and every
jitter draw equal to `0.5` (which lies in `[0.5, 1.5]`), the sleep between
attempt 7 and attempt 8 is `16`: strictly below `0.5 · base_delay · 2^6 = 32`,
the lower bound the claim asserts for it. -/
theorem claim_C3_counterexample :
    (1 / 2 ≤ cexC3jit 6 ∧ cexC3jit 6 ≤ 3 / 2) ∧
    (exponential_backoff_retry ⟨8, 1, 16⟩ cexC3op cexC3jit).calls = 8 ∧
    (exponential_backoff_retry ⟨8, 1, 16⟩ cexC3op cexC3jit).result = .value () ∧
    (exponential_backoff_retry ⟨8, 1, 16⟩ cexC3op cexC3jit).sleeps.getD 6 0 = 16 ∧
    ¬(1 / 2 * ((1 : ℚ) * 2 ^ 6) ≤
      (exponential_backoff_retry ⟨8, 1, 16⟩ cexC3op cexC3jit).sleeps.getD 6 0) := by
  have hrun := retryLoop_fail_then_succ cexC3op cexC3jit (16 : ℚ) 7 8 0 (1 : ℚ) ()
    (by omega)
    (fun i hi => ⟨"timeout", by simp [cexC3op, classify, hi], by decide⟩)
    (by decide)
  have hrun' : exponential_backoff_retry ⟨8, 1, 16⟩ cexC3op cexC3jit =
      ⟨.value (), 8, (List.range 7).map
        (fun j => pyMin ((1 : ℚ) * 2 ^ j * cexC3jit j) 16)⟩ := by
    rw [exponential_backoff_retry, hrun]
    simp
  rw [hrun']
  have hget : ((List.range 7).map
      (fun j => pyMin ((1 : ℚ) * 2 ^ j * cexC3jit j) 16)).getD 6 0 =
      pyMin ((1 : ℚ) * 2 ^ 6 * cexC3jit 6) 16 := by
    rw [List.getD_eq_getElem?_getD, List.getElem?_map, List.getElem?_range (by omega)]
    rfl
  have hval : (1 : ℚ) * 2 ^ 6 * cexC3jit 6 = 32 := by
    rw [cexC3jit, Rat.mkRat_eq_div]
    norm_num
  have hmin : pyMin ((1 : ℚ) * 2 ^ 6 * cexC3jit 6) 16 = 16 := by
    rw [pyMin, hval, if_neg (by norm_num)]
  refine ⟨⟨?_, ?_⟩, rfl, rfl, ?_, ?_⟩
  · rw [cexC3jit, Rat.mkRat_eq_div]; norm_num
  · rw [cexC3jit, Rat.mkRat_eq_div]; norm_num
  · show ((List.range 7).map _).getD 6 0 = 16
    rw [hget, hmin]
  · show ¬(1 / 2 * ((1 : ℚ) * 2 ^ 6) ≤ ((List.range 7).map _).getD 6 0)
    rw [hget, hmin]
    norm_num

/-- Attempt-outcome stream for the C3 witness: one retryable failure, then
success with value 7. -/
def witC3op : Nat → Outcome Nat :=
  fun i => if i = 0 then Outcome.exn "timeout" else Outcome.ret 7 .absent

theorem claim_C3_witness :
    (exponential_backoff_retry ⟨3, 1, 16⟩ witC3op (fun _ => 1)).calls = 2 ∧
    (exponential_backoff_retry ⟨3, 1, 16⟩ witC3op (fun _ => 1)).result = .value 7 := by
  have h := claim_C3_backoff_window ⟨3, 1, 16⟩ witC3op (fun _ => 1) 1 7
    (fun i => by constructor <;> norm_num)
    (by norm_num)
    (by decide)
    (fun i hi => ⟨"timeout", by
      have : i = 0 := by omega
      subst this
      rfl, by decide⟩)
    (by decide)
  exact ⟨h.1, h.2.1⟩

/- ## Session Ledger persistence (source lines 77-104) -/

/-- A session record as stored in `collected_data/session_tracking.json`
(created at lines 195-201, mutated at lines 222, 231, 263-265 and 289-291).
Timestamps are abstract clock values; the source stores ISO-8601 strings,
whose lexicographic order agrees with time order. -/
structure SessionRecord where
  session_id : String
  timestamp : Nat
  status : String
  invoices_collected : Nat
  pages_processed : Nat
  completion_timestamp : Option Nat := none
  final_invoice_count : Option Nat := none
  error : Option String := none
  failure_timestamp : Option Nat := none
deriving DecidableEq

/-- The persisted JSON object of the tracking file. -/
abbrev LedgerMap := List (String × SessionRecord)

/-- Abstract state of the tracking file: missing, present but empty, present
with content `json.load` rejects, or present with a parsed JSON object. -/
inductive FileContent where
  | missing : FileContent
  | empty : FileContent
  | malformed : FileContent
  | valid (m : LedgerMap) : FileContent
deriving DecidableEq

/-- `load_session_tracking` (lines 82-90): `{}` unless the file exists and
parses; `json.load` raises `JSONDecodeError` on empty as well as malformed
content, and the handler swallows it. -/
def load_session_tracking : FileContent → LedgerMap
  | .missing => []
  | .empty => []
  | .malformed => []
  | .valid m => m

/-- A file-system side effect performed by `save_session_tracking`. -/
inductive FsOp where
  | makedirs (dir : String) : FsOp
  | write (path : String) (content : LedgerMap) : FsOp
deriving DecidableEq

/-- The script's `IDEMPOTENCY_FILE` constant (line 18). -/
def IDEMPOTENCY_FILE : String := "collected_data/session_tracking.json"

/-- Characters of a path strictly before its last `/` (`os.path.dirname`). -/
def dirnameList : List Char → List Char
  | [] => []
  | c :: t => if t.contains '/' then c :: dirnameList t else []

/-- Model of `os.path.dirname`. -/
def dirname (p : String) : String := String.mk (dirnameList p.data)

/-- `save_session_tracking` (lines 93-97) as its ordered sequence of
file-system operations: `os.makedirs(..., exist_ok=True)` on the parent
directory, then the write of the full mapping. -/
def save_session_tracking (m : LedgerMap) : List FsOp :=
  [.makedirs (dirname IDEMPOTENCY_FILE), .write IDEMPOTENCY_FILE m]

/-- `check_session_completed` (lines 100-104):
`tracking_data.get(session_id, {}).get('status') == 'completed'`. -/
def check_session_completed (session_id : String) (fc : FileContent) : Bool :=
  match dictGet session_id (load_session_tracking fc) with
  | some info => info.status == "completed"
  | none => false

/- ## The session-ledger behaviour of collect_invoices (lines 177-296) -/

/-- Descending-timestamp relation used by the trim at lines 188-190
(`sorted(..., key=ts, reverse=True)`). -/
def tsDesc (a b : String × SessionRecord) : Bool :=
  decide (b.2.timestamp ≤ a.2.timestamp)

/-- The trim at lines 186-192: when more than 10 records were loaded, keep
the 10 with the most recent timestamp and persist. Python `sorted` with
`reverse=True` is a stable descending sort, as is `mergeSort` with `tsDesc`. -/
def cleanup_old_sessions (td : LedgerMap) : LedgerMap :=
  if 10 < td.length then (List.mergeSort td tsDesc).take 10 else td

/-- Store contents right after the save at line 204: load, trim, insert the
fresh session record. -/
def collectPrologue (fc : FileContent) (sid : String) (r : SessionRecord) : LedgerMap :=
  dictInsert sid r (cleanup_old_sessions (load_session_tracking fc))

/-- Behaviour of the external collaborators on one page of the pagination
loop (lines 218-257): whether `extract_invoices_from_page` raises and how
many accepted rows it returns otherwise, whether the next button is visible
and enabled, whether `safe_click` raises, and whether the table content
changes after the click. -/
structure PageEnv where
  extractErr : Option String
  invoices : Nat
  hasNext : Bool
  clickErr : Option String
  changed : Bool
deriving DecidableEq

/-- Result of the pagination loop: the session-record snapshots saved during
the loop (lines 224 and 233), in order; the final record value; the final
invoice total; and the exception that aborted the loop, if any. -/
structure LoopOut where
  writes : List SessionRecord
  info : SessionRecord
  total : Nat
  err : Option String
deriving DecidableEq

/-- The constant `max_pages = 5` (line 216). -/
def max_pages : Nat := 5

/-- The `while page_number <= max_pages` loop (lines 218-257). The guard
`p ≤ max_pages` is checked exactly as in the source; `fuel` only bounds the
recursion and decreases as `p` increases, so with `fuel = max_pages` from
page 1 the fuel-exhaustion branch coincides with the guard failing. Inside
one iteration: record `pages_processed = p` and save; extract (may raise);
record the invoice total and save; then either stop (no next button), click
(may raise), stop when content did not change, or move to page `p+1`. -/
def pageLoop (pg : Nat → PageEnv) : Nat → Nat → SessionRecord → Nat → LoopOut
  | 0, _, r0, total => ⟨[], r0, total, none⟩
  | fuel + 1, p, r0, total =>
    if p ≤ max_pages then
      let r1 := { r0 with pages_processed := p }
      let pe := pg p
      match pe.extractErr with
      | some m => ⟨[r1], r1, total, some m⟩
      | none =>
          let total1 := total + pe.invoices
          let r2 := { r1 with invoices_collected := total1 }
          if pe.hasNext then
            match pe.clickErr with
            | some m => ⟨[r1, r2], r2, total1, some m⟩
            | none =>
                if pe.changed then
                  let rest := pageLoop pg fuel (p + 1) r2 total1
                  ⟨r1 :: r2 :: rest.writes, rest.info, rest.total, rest.err⟩
                else ⟨[r1, r2], r2, total1, none⟩
          else ⟨[r1, r2], r2, total1, none⟩
    else ⟨[], r0, total, none⟩

/-- Which external steps of one run fail: navigation (line 212), the
per-page collaborators, `save_to_csv` (line 260), and the post-completion
display / `input()` / `browser.close()` steps (lines 269-285). -/
structure RunEnv where
  gotoErr : Option String
  page : Nat → PageEnv
  saveCsvErr : Option String
  postErr : Option String

/-- The `except` handler at lines 287-293. -/
def markFailed (r : SessionRecord) (m : String) (now : Nat) : SessionRecord :=
  { r with status := "failed", error := some m, failure_timestamp := some now }

/-- Output of one run of `collect_invoices`: the final persisted store, the
session-record snapshots saved (lines 204, 224, 233, 267, 293), in order,
and the re-raised exception, if any. -/
structure RunOut where
  store : LedgerMap
  writes : List SessionRecord
  raised : Option String

/-- The session-ledger behaviour of `collect_invoices` (lines 177-296),
over an abstract clock `now` used for every timestamp. The `try` block wraps
everything from browser launch to `browser.close()`, so the post-completion
steps at lines 269-285 can still send control to the `except` handler after
the record was marked completed (lines 263-267). -/
def collect_invoices (env : RunEnv) (fc : FileContent) (sid : String)
    (now : Nat) : RunOut :=
  let r0 : SessionRecord :=
    { session_id := sid, timestamp := now, status := "started",
      invoices_collected := 0, pages_processed := 0 }
  let td2 := collectPrologue fc sid r0
  match env.gotoErr with
  | some m =>
      let rF := markFailed r0 m now
      ⟨dictInsert sid rF td2, [r0, rF], some m⟩
  | none =>
      let L := pageLoop env.page max_pages 1 r0 0
      match L.err with
      | some m =>
          let rF := markFailed L.info m now
          ⟨dictInsert sid rF td2, r0 :: L.writes ++ [rF], some m⟩
      | none =>
          match env.saveCsvErr with
          | some m =>
              let rF := markFailed L.info m now
              ⟨dictInsert sid rF td2, r0 :: L.writes ++ [rF], some m⟩
          | none =>
              let rC := { L.info with
                            status := "completed",
                            final_invoice_count := some L.total,
                            completion_timestamp := some now }
              match env.postErr with
              | some m =>
                  let rF := markFailed rC m now
                  ⟨dictInsert sid rF td2, r0 :: L.writes ++ [rC, rF], some m⟩
              | none => ⟨dictInsert sid rC td2, r0 :: L.writes ++ [rC], none⟩

/-- C8: `load_session_tracking` returns the empty mapping on a missing,
empty, or malformed file (it is a Lean function, hence total: corruption is
recovered locally and never raised), and `save_session_tracking` always
(re)creates the parent directory `collected_data` before performing the
write. -/
theorem claim_C8_persistence_totality :
    load_session_tracking .missing = [] ∧
    load_session_tracking .empty = [] ∧
    load_session_tracking .malformed = [] ∧
    ∀ m : LedgerMap, save_session_tracking m =
      [FsOp.makedirs "collected_data", FsOp.write IDEMPOTENCY_FILE m] :=
  ⟨rfl, rfl, rfl, fun _ => by simp [save_session_tracking, dirname,
    IDEMPOTENCY_FILE, dirnameList]⟩

/-- C9: `check_session_completed sid` is true exactly when a record for `sid`
exists in the loaded mapping and its status equals `completed`; in
particular it is false for an unknown id and for records whose status is
`started` or `failed`. -/
theorem claim_C9_completed_iff :
    ∀ (sid : String) (fc : FileContent),
      check_session_completed sid fc = true ↔
        ∃ r, dictGet sid (load_session_tracking fc) = some r ∧
          r.status = "completed" := by
  intro sid fc
  unfold check_session_completed
  rcases h : dictGet sid (load_session_tracking fc) with _ | r
  · simp
  · simp [h]

theorem pageLoop_pages_le (pg : Nat → PageEnv) :
    ∀ (fuel p : Nat) (r0 : SessionRecord) (total : Nat) (w : SessionRecord),
      w ∈ (pageLoop pg fuel p r0 total).writes → w.pages_processed ≤ max_pages := by
  intro fuel
  induction fuel with
  | zero => intro p r0 total w hw; simp [pageLoop] at hw
  | succ f ih =>
      intro p r0 total w hw
      by_cases hp : p ≤ max_pages
      · simp only [pageLoop, if_pos hp] at hw
        rcases hx : (pg p).extractErr with _ | m
        · simp only [hx] at hw
          by_cases hn : (pg p).hasNext
          · simp only [hn, if_true] at hw
            rcases hc : (pg p).clickErr with _ | m
            · simp only [hc] at hw
              by_cases hch : (pg p).changed
              · simp only [hch, if_true, List.mem_cons] at hw
                rcases hw with rfl | rfl | hw
                · exact hp
                · exact hp
                · exact ih (p + 1) _ _ w hw
              · simp [hch] at hw
                rcases hw with rfl | rfl <;> exact hp
            · simp [hc] at hw
              rcases hw with rfl | rfl <;> exact hp
          · simp [hn] at hw
            rcases hw with rfl | rfl <;> exact hp
        · simp [hx] at hw
          subst hw
          exact hp
      · simp only [pageLoop, if_neg hp] at hw
        simp at hw

/-- A page environment in which every page extracts two accepted rows and the
next-page button is always visible, enabled, and effective. -/
def alwaysNextPg : Nat → PageEnv := fun _ => ⟨none, 2, true, none, true⟩

/-- C10: the pagination loop of `collect_invoices` is bounded by the
hard-coded `max_pages = 5`: every `pages_processed` value it persists is at
most 5, and even when every page offers an enabled, effective next button
the loop processes pages 1..5 and then exits without error. -/
theorem claim_C10_page_cap (pg : Nat → PageEnv) (r0 : SessionRecord) :
    (∀ w ∈ (pageLoop pg max_pages 1 r0 0).writes, w.pages_processed ≤ max_pages) ∧
    (pageLoop alwaysNextPg max_pages 1 r0 0).info.pages_processed = 5 ∧
    ((pageLoop alwaysNextPg max_pages 1 r0 0).writes.map
      (fun w => w.pages_processed)) = [1, 1, 2, 2, 3, 3, 4, 4, 5, 5] ∧
    (pageLoop alwaysNextPg max_pages 1 r0 0).err = none := by
  refine ⟨fun w hw => pageLoop_pages_le pg max_pages 1 r0 0 w hw, ?_, ?_, ?_⟩ <;> rfl

/-- Concrete base record for the C10 witness. -/
def witC10rec : SessionRecord :=
  { session_id := "sid-w", timestamp := 0, status := "started",
    invoices_collected := 0, pages_processed := 0 }

theorem claim_C10_witness :
    { witC10rec with pages_processed := 1 } ∈
      (pageLoop alwaysNextPg max_pages 1 witC10rec 0).writes ∧
    ({ witC10rec with pages_processed := 1 } : SessionRecord).pages_processed ≤ max_pages ∧
    ((pageLoop alwaysNextPg max_pages 1 witC10rec 0).writes.map
      (fun w => w.pages_processed)) = [1, 1, 2, 2, 3, 3, 4, 4, 5, 5] :=
  ⟨by decide,
    (claim_C10_page_cap alwaysNextPg witC10rec).1 _ (by decide),
    (claim_C10_page_cap alwaysNextPg witC10rec).2.2.1⟩

theorem tsDesc_trans : ∀ a b c : String × SessionRecord,
    tsDesc a b = true → tsDesc b c = true → tsDesc a c = true := by
  intro a b c hab hbc
  simp only [tsDesc, decide_eq_true_eq] at *
  omega

theorem tsDesc_total : ∀ a b : String × SessionRecord,
    (tsDesc a b || tsDesc b a) = true := by
  intro a b
  simp only [tsDesc, Bool.or_eq_true, decide_eq_true_eq]
  omega

/-- C6 (amended): on load, a mapping holding more than 10 records is trimmed
to exactly 10 records, each kept record having a timestamp at least as recent
as every dropped record's (and the trimmed mapping is what is persisted);
but inserting the fresh session record happens after the trim, so a ledger
loaded with exactly 10 records holds 11 records right after the insert — the
trim back to 10 only happens on a later load. -/
theorem claim_C6_retention (fc : FileContent) (sid : String) (r : SessionRecord)
    (h10 : (load_session_tracking fc).length = 10)
    (hfresh : dictGet sid (load_session_tracking fc) = none) :
    (collectPrologue fc sid r).length = 11 ∧
    ∀ td : LedgerMap, 10 < td.length →
      (cleanup_old_sessions td).length = 10 ∧
      ∃ dropped, (cleanup_old_sessions td ++ dropped).Perm td ∧
        ∀ p ∈ cleanup_old_sessions td, ∀ q ∈ dropped,
          q.2.timestamp ≤ p.2.timestamp := by
  constructor
  · unfold collectPrologue
    rw [cleanup_old_sessions, if_neg (by omega)]
    rw [length_dictInsert_of_not_mem sid r _ hfresh, h10]
  · intro td htd
    have hlen : (List.mergeSort td tsDesc).length = td.length :=
      List.length_mergeSort td
    have hcl : cleanup_old_sessions td = (List.mergeSort td tsDesc).take 10 := by
      rw [cleanup_old_sessions, if_pos htd]
    constructor
    · rw [hcl, List.length_take, hlen]
      omega
    · refine ⟨(List.mergeSort td tsDesc).drop 10, ?_, ?_⟩
      · rw [hcl, List.take_append_drop]
        exact List.mergeSort_perm td tsDesc
      · intro p hp q hq
        have hsorted : List.Pairwise (fun a b => tsDesc a b = true)
            (List.mergeSort td tsDesc) :=
          List.sorted_mergeSort tsDesc_trans tsDesc_total td
        rw [← List.take_append_drop 10 (List.mergeSort td tsDesc),
          List.pairwise_append] at hsorted
        have := hsorted.2.2 p (by rwa [hcl] at hp) q hq
        simpa [tsDesc] using this

/-- Ten concrete session records keyed `s0`..`s9`, timestamps 0..9. -/
def cexRec (i : Nat) : SessionRecord :=
  { session_id := "s" ++ toString i, timestamp := i, status := "completed",
    invoices_collected := 0, pages_processed := 1 }

/-- A persisted ledger holding exactly 10 records. -/
def cexLedger10 : LedgerMap :=
  (List.range 10).map (fun i => ("s" ++ toString i, cexRec i))

/-- The fresh session record of the 11th run. -/
def cexNewRec : SessionRecord :=
  { session_id := "s-new", timestamp := 10, status := "started",
    invoices_collected := 0, pages_processed := 0 }

/-- C6 counterexample: with exactly 10 persisted records, the store saved
right after inserting the 11th session record (line 204) holds 11 records,
not 10 — the trim at lines 187-192 ran before the insert and did not fire. -/
theorem claim_C6_counterexample :
    cexLedger10.length = 10 ∧
    (collectPrologue (.valid cexLedger10) "s-new" cexNewRec).length = 11 ∧
    ¬((collectPrologue (.valid cexLedger10) "s-new" cexNewRec).length = 10) :=
  ⟨by decide, by decide, by decide⟩

theorem claim_C6_witness :
    (load_session_tracking (.valid cexLedger10)).length = 10 ∧
    dictGet "s-new" (load_session_tracking (.valid cexLedger10)) = none ∧
    (collectPrologue (.valid cexLedger10) "s-new" cexNewRec).length = 11 :=
  ⟨by decide, by decide,
    (claim_C6_retention (.valid cexLedger10) "s-new" cexNewRec
      (by decide) (by decide)).1⟩

/-- Run environment exhibiting the C7 defect: navigation succeeds, one page
with no next button is collected, the CSV save succeeds, and then the
post-completion pause (`input()` at line 283) raises `EOFError`, whose
message is `EOF when reading a line`. -/
def cexC7Env : RunEnv :=
  { gotoErr := none,
    page := fun _ => ⟨none, 3, false, none, true⟩,
    saveCsvErr := none,
    postErr := some "EOF when reading a line" }

/-- Does the write sequence contain a `completed` write with a `failed`
write strictly after it? -/
def revertsCompleted : List String → Bool
  | [] => false
  | s :: t => (s == "completed" && t.contains "failed") || revertsCompleted t

/-- C7 (code bug in the source): the `except` handler at lines 287-293 wraps
the post-completion display/`input()`/`browser.close()` steps, so a run whose
collection succeeds (status set to `completed` and saved at line 267) but
whose interactive pause then raises ends with the same record overwritten to
`failed` — the persisted status sequence is
`started, started, started, completed, failed`, a completed→failed
reversion, and the final stored status is `failed`. -/
theorem claim_C7_status_reverts :
    ((collect_invoices cexC7Env .missing "sid-1" 100).writes.map
      (fun w => w.status)) = ["started", "started", "started", "completed", "failed"] ∧
    revertsCompleted ((collect_invoices cexC7Env .missing "sid-1" 100).writes.map
      (fun w => w.status)) = true ∧
    (match dictGet "sid-1" (collect_invoices cexC7Env .missing "sid-1" 100).store with
      | some rec => rec.status
      | none => "") = "failed" ∧
    (collect_invoices cexC7Env .missing "sid-1" 100).raised =
      some "EOF when reading a line" :=
  ⟨by decide, by decide, by decide, by decide⟩

/- ## Idempotency Cache, modelled from the spec (sections 4.2, 3, 6) -/

/-- Modelled from the spec: one entry of the idempotency cache file,
`{"ts": <epoch seconds>, "summary": <opaque JSON value>}` (spec section 6).
The cache implementation (`maybe_replay`, `record_result`, `_idem_load`,
`_idem_save`, `IDEM_TTL_SECONDS`) is imported by
`src/tests/test_retry_and_idempotency.py` but missing from the script under
`src/`, so it is modelled from the spec's words. -/
structure IdemEntry (α : Type) where
  ts : Int
  summary : α
deriving DecidableEq

/-- The persisted cache mapping, keyed by idempotency key. -/
abbrev IdemStore (α : Type) := List (String × IdemEntry α)

/-- Modelled from the spec (4.2): `maybe_replay(key)` returns the cached
summary only if `key` is non-empty, an entry exists, and
`now - entry.timestamp ≤ TTL`; otherwise absent. Replay is read-only. -/
def maybe_replay {α : Type} (ttl now : Int) (key : String)
    (store : IdemStore α) : Option α :=
  if key = "" then none
  else
    match dictGet key store with
    | some e => if now - e.ts ≤ ttl then some e.summary else none
    | none => none

/-- Modelled from the spec (4.2): `record_result(key, summary)` is a no-op on
an empty key; otherwise it upserts `{timestamp: now, summary}` for `key` and
persists the full mapping. -/
def record_result {α : Type} (now : Int) (key : String) (s : α)
    (store : IdemStore α) : IdemStore α :=
  if key = "" then store else dictInsert key ⟨now, s⟩ store

/-- C2: for a non-empty key and any summary, `record_result` immediately
followed by `maybe_replay` returns that summary (the fresh entry's age is 0);
and when an entry is older than the TTL, `maybe_replay` returns absent even
though the entry is still present in storage (lazy expiry, no deletion). -/
theorem claim_C2_roundtrip_and_ttl {α : Type} (ttl now : Int) (key : String)
    (s : α) (store : IdemStore α) (hkey : key ≠ "") (httl : 0 ≤ ttl) :
    maybe_replay ttl now key (record_result now key s store) = some s ∧
    ∀ e : IdemEntry α, dictGet key store = some e → ttl < now - e.ts →
      maybe_replay ttl now key store = none ∧ dictGet key store = some e := by
  constructor
  · unfold maybe_replay record_result
    rw [if_neg hkey, if_neg hkey, dictGet_dictInsert_self]
    simp [httl]
  · intro e he hexp
    refine ⟨?_, he⟩
    unfold maybe_replay
    rw [if_neg hkey, he]
    simp only [if_neg (show ¬(now - e.ts ≤ ttl) by omega)]

theorem claim_C2_witness :
    ("daily" ≠ "") ∧ (0 ≤ (300 : Int)) ∧
    maybe_replay 300 1000 "daily"
      (record_result 1000 "daily" (5 : Nat) []) = some 5 ∧
    (dictGet "daily" ([("daily", ⟨600, 5⟩)] : IdemStore Nat) = some ⟨600, 5⟩ →
        (300 : Int) < 1000 - 600 →
      maybe_replay 300 1000 "daily" ([("daily", ⟨600, 5⟩)] : IdemStore Nat) = none ∧
        dictGet "daily" ([("daily", ⟨600, 5⟩)] : IdemStore Nat) = some ⟨600, 5⟩) :=
  ⟨by decide, by decide,
    (claim_C2_roundtrip_and_ttl 300 1000 "daily" (5 : Nat) [] (by decide) (by decide)).1,
    (claim_C2_roundtrip_and_ttl 300 1000 "daily" (5 : Nat) [("daily", ⟨600, 5⟩)]
      (by decide) (by decide)).2 ⟨600, 5⟩⟩
